import Mathlib

/-!
Shallow embedding of the ClaudeOps syslog agent
(`src/claude_agents/syslog_agent.py`), together with a model, taken from the
specification, of the pattern-classification module that the repository's
`test_syslog_agent.py` imports (`from syslog_agent import SyslogAgent`) but
whose source file is not present under `src/`.

Strings are modelled as `List Char`.  The Python regex

  `^(\w{3}\s+\d{1,2}\s+\d{2}:\d{2}:\d{2})\s+(\S+)\s+([^:\[\s]+)(?:\[(\d+)\])?:\s*(.*)`

is deterministic on every input (each greedy element is followed by a
character class disjoint from its own, so backtracking can never produce a
match that the greedy scan misses); `matchSyslog` below is that greedy scan.
`datetime.strptime(f"{year} {ts}", "%Y %b %d %H:%M:%S")` succeeds exactly
when the year has four digits, the month is a three-letter month
abbreviation (case-insensitive), the day is a valid day of that month, the
hour is 00-23, the minute 00-59 and the second 00-59 (seconds 60/61 pass the
strptime regex but are rejected by the `datetime` constructor); `mkTimestamp`
below is that condition.
-/

/-- The six ASCII whitespace characters recognised by Python's `str.strip`
and by `\s` on ASCII text. -/
def isSpaceC (c : Char) : Bool :=
  c == ' ' || c == '\t' || c == '\n' || c == '\r' || c == '\x0b' || c == '\x0c'

/-- ASCII model of Python's `\w`: letters, digits and underscore. -/
def isWordChar (c : Char) : Bool :=
  c.isAlpha || c.isDigit || c == '_'

/-- Characters allowed in the process token: the regex class `[^:\[\s]`. -/
def isProcChar (c : Char) : Bool :=
  !(c == ':') && !(c == '[') && !(isSpaceC c)

/-- Python's `line.strip()`: drop leading and trailing whitespace. -/
def pyStrip (l : List Char) : List Char :=
  ((l.dropWhile isSpaceC).reverse.dropWhile isSpaceC).reverse

/-- Decimal value of a digit string, as computed by Python's `int`. -/
def natOfDigits (l : List Char) : Nat :=
  l.foldl (fun a c => a * 10 + (c.toNat - 48)) 0

/-- Take exactly `n` characters satisfying `p` (the regex `p{n}`). -/
def takeCount (p : Char → Bool) : Nat → List Char → Option (List Char × List Char)
  | 0, l => some ([], l)
  | _ + 1, [] => none
  | n + 1, c :: t =>
    if p c then (takeCount p n t).map (fun r => (c :: r.1, r.2)) else none

/-- Take a maximal nonempty run of characters satisfying `p` (the regex `p+`). -/
def takeRun1 (p : Char → Bool) (l : List Char) : Option (List Char × List Char) :=
  match l with
  | [] => none
  | c :: _ => if p c then some (l.takeWhile p, l.dropWhile p) else none

/-- The capture groups of the syslog regex other than the message. -/
structure Header where
  month3 : List Char
  dayDs : List Char
  hhDs : List Char
  mmDs : List Char
  ssDs : List Char
  hostname : List Char
  process : List Char
  pidDs : Option (List Char)
deriving DecidableEq

/-- All capture groups of the syslog regex. -/
structure Groups extends Header where
  message : List Char
deriving DecidableEq

/-- Greedy scan of the header part of the syslog regex, up to and including
the `:` after the process (and optional pid) token; returns the parts and
the remaining characters. -/
def scanHeader (s : List Char) : Option (Header × List Char) :=
  match takeCount isWordChar 3 s with
  | none => none
  | some (mon, r1) =>
    match takeRun1 isSpaceC r1 with
    | none => none
    | some (_, r2) =>
      let dayDs := r2.takeWhile Char.isDigit
      if dayDs.length = 0 ∨ dayDs.length > 2 then none else
      match takeRun1 isSpaceC (r2.dropWhile Char.isDigit) with
      | none => none
      | some (_, r3) =>
        match takeCount Char.isDigit 2 r3 with
        | none => none
        | some (hh, r4) =>
          match r4 with
          | ':' :: r5 =>
            match takeCount Char.isDigit 2 r5 with
            | none => none
            | some (mm, r6) =>
              match r6 with
              | ':' :: r7 =>
                match takeCount Char.isDigit 2 r7 with
                | none => none
                | some (ss, r8) =>
                  match takeRun1 isSpaceC r8 with
                  | none => none
                  | some (_, r9) =>
                    let host := r9.takeWhile (fun c => !isSpaceC c)
                    if host.isEmpty then none else
                    match takeRun1 isSpaceC (r9.dropWhile (fun c => !isSpaceC c)) with
                    | none => none
                    | some (_, r10) =>
                      let proc := r10.takeWhile isProcChar
                      if proc.isEmpty then none else
                      match r10.dropWhile isProcChar with
                      | '[' :: r11 =>
                        let pid := r11.takeWhile Char.isDigit
                        if pid.isEmpty then none else
                        match r11.dropWhile Char.isDigit with
                        | ']' :: ':' :: r12 =>
                          some (⟨mon, dayDs, hh, mm, ss, host, proc, some pid⟩, r12)
                        | _ => none
                      | ':' :: r12 =>
                        some (⟨mon, dayDs, hh, mm, ss, host, proc, none⟩, r12)
                      | _ => none
              | _ => none
          | _ => none

/-- The message group `\s*(.*)`: skip whitespace greedily, then take
everything up to the end of the line (`.` does not cross a newline). -/
def mkMessage (t : List Char) : List Char :=
  (t.dropWhile isSpaceC).takeWhile (fun c => c != '\n')

/-- The full syslog regex, as `re.match` applies it to the stripped line. -/
def matchSyslog (s : List Char) : Option Groups :=
  match scanHeader s with
  | none => none
  | some (h, t) => some ⟨h, mkMessage t⟩

/-- Lower-case month abbreviations accepted by `strptime`'s `%b`. -/
def monthsLower : List (List Char) :=
  ["jan", "feb", "mar", "apr", "may", "jun",
   "jul", "aug", "sep", "oct", "nov", "dec"].map String.toList

/-- Case-insensitive month lookup; returns the month number 1-12. -/
def monthIndex (m : List Char) : Option Nat :=
  (monthsLower.findIdx? (fun x => x == m.map Char.toLower)).map (· + 1)

/-- Gregorian leap-year rule used by Python's `datetime`. -/
def isLeapYear (y : Nat) : Bool :=
  (y % 4 == 0 && y % 100 != 0) || y % 400 == 0

/-- Number of days in a month of a given year. -/
def daysInMonth (y m : Nat) : Nat :=
  if m = 2 then (if isLeapYear y then 29 else 28)
  else if m = 4 ∨ m = 6 ∨ m = 9 ∨ m = 11 then 30 else 31

/-- A parsed `datetime` value (year, month, day, hour, minute, second). -/
structure Timestamp where
  year : Nat
  month : Nat
  day : Nat
  hour : Nat
  minute : Nat
  second : Nat
deriving DecidableEq

/-- Validation performed by
`datetime.strptime(f"{year} {ts}", "%Y %b %d %H:%M:%S")`: four-digit year,
known month abbreviation, day valid for the month, hour 00-23, minute and
second 00-59.  Returns `none` exactly when the Python call raises
`ValueError`. -/
def mkTimestamp (year : Nat) (g : Groups) : Option Timestamp :=
  match monthIndex g.month3 with
  | none => none
  | some m =>
    let d := natOfDigits g.dayDs
    let hh := natOfDigits g.hhDs
    let mm := natOfDigits g.mmDs
    let ss := natOfDigits g.ssDs
    if 1000 ≤ year ∧ year ≤ 9999 ∧ 1 ≤ d ∧ d ≤ daysInMonth year m ∧
        hh ≤ 23 ∧ mm ≤ 59 ∧ ss ≤ 59 then
      some ⟨year, m, d, hh, mm, ss⟩
    else none

/-- The `LogEntry` pydantic model of `src/claude_agents/syslog_agent.py`. -/
structure LogEntry where
  timestamp : Timestamp
  hostname : List Char
  process : List Char
  pid : Option Nat
  message : List Char
  raw_line : List Char
deriving DecidableEq

/-- Model of `SyslogAgent.parse_log_entry`, parametrised by the current wall-clock
year (`datetime.now().year`).  Returns `none` where the Python method
returns `None`. -/
def parse_log_entry (year : Nat) (line : List Char) : Option LogEntry :=
  match matchSyslog (pyStrip line) with
  | none => none
  | some g =>
    match mkTimestamp year g with
    | none => none
    | some ts =>
      some ⟨ts, g.hostname, g.process, g.pidDs.map natOfDigits, g.message, pyStrip line⟩

/-- Outcome of opening and reading the syslog file in `read_syslog`:
the file may be missing, unreadable (permission denied), or readable with a
given list of lines. -/
inductive FileAccess where
  | missing
  | denied
  | readable (lines : List (List Char))
deriving DecidableEq

/-- Diagnostic printed by `read_syslog` on its error paths. -/
inductive Diagnostic where
  | notFound
  | permissionDenied
deriving DecidableEq

/-- Python's `lines[-n:] if len(lines) > n else lines` (note `lines[-0:]`
is the whole list). -/
def lastLines (n : Nat) (xs : List (List Char)) : List (List Char) :=
  if xs.length > n then (if n = 0 then xs else xs.drop (xs.length - n)) else xs

/-- Model of `SyslogAgent.read_syslog`: on a missing or unreadable file it prints a
diagnostic and returns the empty list (modelled as the pair of the returned
entries and the optional diagnostic); otherwise it parses the last
`tail_lines` lines, keeping the successfully parsed entries. -/
def read_syslog (year tail_lines : Nat) (fa : FileAccess) :
    List LogEntry × Option Diagnostic :=
  match fa with
  | .missing => ([], some .notFound)
  | .denied => ([], some .permissionDenied)
  | .readable lines => ((lastLines tail_lines lines).filterMap (parse_log_entry year), none)

/-- Capitalised month abbreviations produced by `strftime('%b')`. -/
def monthAbbrevs : List (List Char) :=
  ["Jan", "Feb", "Mar", "Apr", "May", "Jun",
   "Jul", "Aug", "Sep", "Oct", "Nov", "Dec"].map String.toList

/-- Month name for a month number 1-12. -/
def monthName (m : Nat) : List Char :=
  monthAbbrevs.getD (m - 1) []

/-- Two-digit zero-padded decimal rendering (`%d`, `%H`, `%M`, `%S`). -/
def pad2 (n : Nat) : List Char :=
  if n < 10 then '0' :: Nat.toDigits 10 n else Nat.toDigits 10 n

/-- The f-string fragment `{entry.pid or '-'}`: Python's `or` substitutes
the dash for every falsy value, so both `None` and `0` render as `-`. -/
def pidOrDash : Option Nat → List Char
  | none => ['-']
  | some n => if n = 0 then ['-'] else Nat.toDigits 10 n

/-- One line of the transcript built in `analyze_with_claude`:
`f"{entry.timestamp.strftime('%b %d %H:%M:%S')} {entry.hostname} "
 f"{entry.process}[{entry.pid or '-'}]: {entry.message}"`. -/
def formatEntry (e : LogEntry) : List Char :=
  monthName e.timestamp.month ++ [' '] ++ pad2 e.timestamp.day ++ [' '] ++
    pad2 e.timestamp.hour ++ [':'] ++ pad2 e.timestamp.minute ++ [':'] ++
    pad2 e.timestamp.second ++ [' '] ++ e.hostname ++ [' '] ++
    e.process ++ ['['] ++ pidOrDash e.pid ++ [']', ':', ' '] ++ e.message

/-- The `log_text` transcript: `"\n".join(...)` over the formatted entries.
It is spliced into the prompt handed to the external summarizer. -/
def logText (entries : List LogEntry) : List Char :=
  List.intercalate ['\n'] (entries.map formatEntry)

/-- A content block of a streamed assistant message (`TextBlock` or any
other block kind). -/
inductive ClaudeBlock where
  | text (s : List Char)
  | other
deriving DecidableEq

/-- One streamed message from the external summarizer (`AssistantMessage`,
`ResultMessage`, or any other kind). -/
inductive ClaudeMessage where
  | assistant (blocks : List ClaudeBlock)
  | result
  | other
deriving DecidableEq

/-- Text contributed by one block: only `TextBlock`s contribute. -/
def blockText : ClaudeBlock → List Char
  | .text s => s
  | .other => []

/-- Text contributed by one streamed message: the concatenated text blocks
of an `AssistantMessage`; `ResultMessage` and others contribute nothing. -/
def messageText : ClaudeMessage → List Char
  | .assistant bs => (bs.map blockText).flatten
  | .result => []
  | .other => []

/-- The `response_text` accumulated over the stream. -/
def collectResponse (ms : List ClaudeMessage) : List Char :=
  (ms.map messageText).flatten

/-- The early-return text for an empty entry list. -/
def noEntriesMsg : List Char := "No log entries to analyze.".toList

/-- The text prefixed to the exception message by the `except` branch. -/
def errorRespPre : List Char := "Error analyzing with Claude: ".toList

/-- Model of `SyslogAgent.analyze_with_claude`: the external `query` call either
yields a stream of messages or raises, which the method models with a
caught exception whose text is substituted for the narrative output. -/
def analyze_with_claude (entries : List LogEntry)
    (outcome : Except (List Char) (List ClaudeMessage)) : List Char :=
  if entries.isEmpty then noEntriesMsg
  else
    match outcome with
    | .error e => errorRespPre ++ e
    | .ok ms => collectResponse ms

/-- Test `leadsWith needle hay` holds when `needle` is an initial run of `hay`. -/
def leadsWith : List Char → List Char → Bool
  | [], _ => true
  | _ :: _, [] => false
  | a :: as, b :: bs => a == b && leadsWith as bs

/-- Test `containsSub hay needle`: `needle` occurs contiguously inside `hay`. -/
def containsSub : List Char → List Char → Bool
  | [], needle => needle.isEmpty
  | c :: t, needle => leadsWith needle (c :: t) || containsSub t needle

/-- Characterwise ASCII lower-casing. -/
def lowerL (l : List Char) : List Char := l.map Char.toLower

/-- Severity levels of the classification rules. -/
inductive Severity where
  | info
  | warning
  | error
  | critical
deriving DecidableEq

/-- One named classification rule of the pattern catalog. -/
structure SyslogPattern where
  name : List Char
  indicators : List (List Char)
  severity : Severity
  description : List Char
deriving DecidableEq

/-- Case-insensitive substring match of any of a rule's indicators against
a message. -/
def patternMatches (p : SyslogPattern) (msg : List Char) : Bool :=
  p.indicators.any (fun ind => containsSub (lowerL msg) (lowerL ind))

/-- Modelled from the spec: the built-in "Authentication Failure" rule of
the pattern catalog.  The catalog lives in the repository's top-level
`syslog_agent` module (imported by `src/test_syslog_agent.py` as
`agent.patterns`), which is not present under `src/`; per the spec its
matcher is a case-insensitive search for authentication/login failure
indicators and its severity is `error`. -/
def authFailurePattern : SyslogPattern :=
  ⟨"Authentication Failure".toList,
   ["authentication failure".toList, "failed login".toList],
   Severity.error,
   "Authentication or login failure detected".toList⟩

/-- Modelled from the spec: the built-in "Disk Space Warning" rule
(storage-exhaustion indicators, severity `warning`). -/
def diskSpacePattern : SyslogPattern :=
  ⟨"Disk Space Warning".toList,
   ["disk full".toList, "no space left".toList],
   Severity.warning,
   "Storage exhaustion detected".toList⟩

/-- Modelled from the spec: the ordered built-in pattern catalog
(`agent.patterns` of the absent top-level `syslog_agent` module). -/
def patterns : List SyslogPattern :=
  [authFailurePattern, diskSpacePattern]

/-- Modelled from the spec: `analyze_entry` of the absent top-level
`syslog_agent` module (called by `src/test_syslog_agent.py`): evaluate
every catalog rule in order and collect every rule that matches the
entry's message. -/
def analyze_entry (e : LogEntry) : List SyslogPattern :=
  patterns.filter (fun p => patternMatches p e.message)

/-- A parsed entry of the absent pattern-based module, which carries a
severity in addition to the fields of `LogEntry`. -/
structure SeverityLogEntry where
  entry : LogEntry
  severity : Severity
deriving DecidableEq

/-- Modelled from the spec: the parse of the absent top-level
`syslog_agent` module, whose entries carry a default severity `info`
assigned at parse time; the definition makes no reference to the pattern
catalog, so the assignment is independent of pattern matching. -/
def parseWithSeverity (year : Nat) (line : List Char) : Option SeverityLogEntry :=
  (parse_log_entry year line).map (fun e => ⟨e, Severity.info⟩)

/-- The per-entry transcript line shape stated by the spec, rendering the
entry's pid digits whenever the pid is present and `-` only when it is
absent. -/
def claimedLine (e : LogEntry) : List Char :=
  monthName e.timestamp.month ++ [' '] ++ pad2 e.timestamp.day ++ [' '] ++
    pad2 e.timestamp.hour ++ [':'] ++ pad2 e.timestamp.minute ++ [':'] ++
    pad2 e.timestamp.second ++ [' '] ++ e.hostname ++ [' '] ++ e.process ++ ['['] ++
    (match e.pid with
     | none => ['-']
     | some n => Nat.toDigits 10 n) ++
    [']', ':', ' '] ++ e.message

/-- The per-entry transcript line shape as the code actually renders it:
the pid position holds the pid digits when the pid is present and nonzero,
and the dash when the pid is absent or zero. -/
def transcriptLine (e : LogEntry) : List Char :=
  monthName e.timestamp.month ++ [' '] ++ pad2 e.timestamp.day ++ [' '] ++
    pad2 e.timestamp.hour ++ [':'] ++ pad2 e.timestamp.minute ++ [':'] ++
    pad2 e.timestamp.second ++ [' '] ++ e.hostname ++ [' '] ++ e.process ++ ['['] ++
    (match e.pid with
     | none => ['-']
     | some n => if n = 0 then ['-'] else Nat.toDigits 10 n) ++
    [']', ':', ' '] ++ e.message

/-- A parsed entry whose message contains an upper-case authentication
failure indicator, for exercising the classifier. -/
def c1Entry : LogEntry :=
  ⟨⟨2026, 12, 13, 10, 30, 45⟩, "localhost".toList, "sshd".toList, some 1234,
   "AUTHENTICATION FAILURE for user test".toList,
   "Dec 13 10:30:45 localhost sshd[1234]: AUTHENTICATION FAILURE for user test".toList⟩

/-- A canonical syslog line without a pid segment. -/
def c2Line : List Char :=
  "Dec 13 10:31:00 localhost kernel: disk full on /var partition".toList

/-- The severity-carrying entry parsed from `c2Line`. -/
def c2Entry : SeverityLogEntry :=
  ⟨⟨⟨2026, 12, 13, 10, 31, 0⟩, "localhost".toList, "kernel".toList, none,
    "disk full on /var partition".toList, c2Line⟩, Severity.info⟩

/-- A canonical syslog line whose pid segment is `[0]`. -/
def c3Line : List Char :=
  "Dec 13 10:30:45 localhost sshd[0]: session opened for user root".toList

/-- A canonical syslog line with pid segment `[1234]`. -/
def c3wLine : List Char :=
  "Dec 13 10:30:45 localhost sshd[1234]: authentication failure for user test".toList

/-- The regex groups captured from `c3wLine`. -/
def c3wGroups : Groups :=
  ⟨⟨"Dec".toList, "13".toList, "10".toList, "30".toList, "45".toList,
    "localhost".toList, "sshd".toList, some "1234".toList⟩,
   "authentication failure for user test".toList⟩

/-- The entry parsed from `c3wLine` in year 2026. -/
def c3wEntry : LogEntry :=
  ⟨⟨2026, 12, 13, 10, 30, 45⟩, "localhost".toList, "sshd".toList, some 1234,
   "authentication failure for user test".toList, c3wLine⟩

/-- A canonical syslog line wrapped in outer whitespace. -/
def c4Line : List Char :=
  "  Dec 13 10:31:15 localhost systemd: Started nginx.service\n".toList

/-- The entry parsed from `c4Line` in year 2026. -/
def c4Entry : LogEntry :=
  ⟨⟨2026, 12, 13, 10, 31, 15⟩, "localhost".toList, "systemd".toList, none,
   "Started nginx.service".toList,
   "Dec 13 10:31:15 localhost systemd: Started nginx.service".toList⟩

/-- A line of valid textual shape whose date (Feb 30) is not a valid
calendar date. -/
def c5Line : List Char :=
  "Feb 30 10:30:45 localhost cron: x".toList

/-- The regex groups captured from `c5Line`. -/
def c5Groups : Groups :=
  ⟨⟨"Feb".toList, "30".toList, "10".toList, "30".toList, "45".toList,
    "localhost".toList, "cron".toList, none⟩, "x".toList⟩

/-- A canonical syslog line whose pid segment is `[0]`, for the transcript
claim. -/
def c7Line : List Char :=
  "Dec 13 10:30:45 localhost sshd[0]: session opened for user root".toList

/-- The entry parsed from `c7Line` in year 2026: its pid is present and
equal to zero. -/
def c7Entry : LogEntry :=
  ⟨⟨2026, 12, 13, 10, 30, 45⟩, "localhost".toList, "sshd".toList, some 0,
   "session opened for user root".toList, c7Line⟩

/-- An entry list for exercising the collaborator-failure path. -/
def c8Entry : LogEntry :=
  ⟨⟨2026, 1, 1, 0, 0, 0⟩, "localhost".toList, "test".toList, none,
   "test message".toList, "test line".toList⟩

/-- A canonical syslog line with whitespace after the separating colon. -/
def c9Line : List Char :=
  "Dec 13 10:30:45 host app:    hello".toList

/-- The entry parsed from `c9Line` in year 2026. -/
def c9Entry : LogEntry :=
  ⟨⟨2026, 12, 13, 10, 30, 45⟩, "host".toList, "app".toList, none,
   "hello".toList, c9Line⟩

theorem dropWhile_idem (p : Char → Bool) (l : List Char) :
    (l.dropWhile p).dropWhile p = l.dropWhile p := by
  induction l with
  | nil => rfl
  | cons a t ih =>
    by_cases h : p a
    · simp [List.dropWhile_cons, h, ih]
    · simp [List.dropWhile_cons, h]

theorem dropWhile_append_cases (p : Char → Bool) (xs ys : List Char) :
    (xs ++ ys).dropWhile p =
      if (xs.dropWhile p).isEmpty then ys.dropWhile p else xs.dropWhile p ++ ys := by
  induction xs with
  | nil => simp
  | cons a t ih =>
    by_cases h : p a
    · simpa [List.dropWhile_cons, h] using ih
    · simp [List.dropWhile_cons, h]

theorem dropWhile_length_le (p : Char → Bool) (l : List Char) :
    (l.dropWhile p).length ≤ l.length := by
  induction l with
  | nil => simp
  | cons a t ih =>
    by_cases h : p a
    · simp only [List.dropWhile_cons, h, if_true]
      exact Nat.le_succ_of_le ih
    · simp [List.dropWhile_cons, h]

theorem head_not_of_dropWhile_self (p : Char → Bool) (a : Char) (t : List Char)
    (h : (a :: t).dropWhile p = a :: t) : p a = false := by
  by_cases hp : p a
  · exfalso
    rw [List.dropWhile_cons, if_pos hp] at h
    have hle : (t.dropWhile p).length ≤ t.length := dropWhile_length_le p t
    rw [h] at hle
    simp at hle
  · exact Bool.not_eq_true (p a) |>.mp hp

theorem dropWhile_rstrip_self (p : Char → Bool) (y : List Char)
    (hy : y.dropWhile p = y) :
    ((y.reverse.dropWhile p).reverse).dropWhile p = (y.reverse.dropWhile p).reverse := by
  cases y with
  | nil => rfl
  | cons a t =>
    have ha : p a = false := head_not_of_dropWhile_self p a t hy
    rw [List.reverse_cons, dropWhile_append_cases]
    by_cases he : (t.reverse.dropWhile p).isEmpty
    · rw [if_pos he]
      simp [List.dropWhile_cons, ha]
    · rw [if_neg he]
      rw [List.reverse_append]
      simp [List.dropWhile_cons, ha]

theorem pyStrip_idem (l : List Char) : pyStrip (pyStrip l) = pyStrip l := by
  unfold pyStrip
  have h1 : (((l.dropWhile isSpaceC).reverse.dropWhile isSpaceC).reverse).dropWhile isSpaceC
      = ((l.dropWhile isSpaceC).reverse.dropWhile isSpaceC).reverse :=
    dropWhile_rstrip_self isSpaceC (l.dropWhile isSpaceC) (dropWhile_idem isSpaceC l)
  rw [h1, List.reverse_reverse, dropWhile_idem]

/-- Claim C10: parsing is invariant under outer-whitespace trimming: for every
input line and every current year, `parse_log_entry` on the line and on the
stripped line give exactly the same result. -/
theorem parse_strip_invariant (year : Nat) (line : List Char) :
    parse_log_entry year line = parse_log_entry year (pyStrip line) := by
  unfold parse_log_entry
  rw [pyStrip_idem]

theorem matchSyslog_message (s : List Char) (g : Groups)
    (h : matchSyslog s = some g) : ∃ t, g.message = mkMessage t := by
  unfold matchSyslog at h
  cases hs : scanHeader s with
  | none => rw [hs] at h; simp at h
  | some ht =>
    rw [hs] at h
    injection h with h
    exact ⟨ht.2, by rw [← h]⟩

theorem head_not_space_of_dropWhile (l : List Char) (c : Char)
    (h : (l.dropWhile isSpaceC).head? = some c) : isSpaceC c = false := by
  induction l with
  | nil => simp at h
  | cons a t ih =>
    by_cases hp : isSpaceC a
    · rw [List.dropWhile_cons, if_pos hp] at h
      exact ih h
    · rw [List.dropWhile_cons, if_neg hp] at h
      simp at h
      rw [← h]
      exact Bool.not_eq_true (isSpaceC a) |>.mp hp

theorem mkMessage_head_not_space (t : List Char) (c : Char)
    (h : (mkMessage t).head? = some c) : isSpaceC c = false := by
  unfold mkMessage at h
  cases hd : t.dropWhile isSpaceC with
  | nil => rw [hd] at h; simp at h
  | cons a u =>
    rw [hd] at h
    by_cases hq : a != '\n'
    · rw [List.takeWhile_cons, if_pos hq] at h
      simp at h
      rw [← h]
      exact head_not_space_of_dropWhile t a (by rw [hd]; rfl)
    · rw [List.takeWhile_cons, if_neg hq] at h
      simp at h

/-- Claim C9: the message of a successfully parsed entry never begins with a
whitespace character: the parser's `\s*` consumes all whitespace after the
separating colon before the message group starts. -/
theorem message_no_leading_space (year : Nat) (line : List Char) (e : LogEntry)
    (hp : parse_log_entry year line = some e) :
    ∀ c, e.message.head? = some c → isSpaceC c = false := by
  intro c hc
  unfold parse_log_entry at hp
  cases hm : matchSyslog (pyStrip line) with
  | none => simp only [hm] at hp; exact Option.noConfusion hp
  | some g =>
    simp only [hm] at hp
    cases ht : mkTimestamp year g with
    | none => simp only [ht] at hp; exact Option.noConfusion hp
    | some ts =>
      simp only [ht, Option.some.injEq] at hp
      obtain ⟨t, hgm⟩ := matchSyslog_message (pyStrip line) g hm
      rw [← hp] at hc
      simp only [hgm] at hc
      exact mkMessage_head_not_space t c hc

/-- Witness for C9 at a concrete line whose colon is followed by four
spaces. -/
theorem message_no_leading_space_witness :
    parse_log_entry 2026 c9Line = some c9Entry ∧
      ∀ c, c9Entry.message.head? = some c → isSpaceC c = false :=
  ⟨by decide, message_no_leading_space 2026 c9Line c9Entry (by decide)⟩

/-- Claim C4: the `raw_line` of every successfully parsed entry is the input
line stripped of leading and trailing whitespace. -/
theorem raw_line_is_stripped (year : Nat) (line : List Char) (e : LogEntry)
    (hp : parse_log_entry year line = some e) : e.raw_line = pyStrip line := by
  unfold parse_log_entry at hp
  cases hm : matchSyslog (pyStrip line) with
  | none => simp only [hm] at hp; exact Option.noConfusion hp
  | some g =>
    simp only [hm] at hp
    cases ht : mkTimestamp year g with
    | none => simp only [ht] at hp; exact Option.noConfusion hp
    | some ts =>
      simp only [ht, Option.some.injEq] at hp
      rw [← hp]

/-- Witness for C4 at a line wrapped in outer whitespace. -/
theorem raw_line_is_stripped_witness :
    parse_log_entry 2026 c4Line = some c4Entry ∧ c4Entry.raw_line = pyStrip c4Line :=
  ⟨by decide, raw_line_is_stripped 2026 c4Line c4Entry (by decide)⟩

/-- Claim C5: when the textual shape matches the syslog regex but the
extracted month/day/time does not form a valid calendar date-time with the
current year, `parse_log_entry` returns `none` (the Python `ValueError` is
caught; totality of the model reflects that no exception escapes). -/
theorem parse_none_of_invalid_date (year : Nat) (line : List Char) (g : Groups)
    (hm : matchSyslog (pyStrip line) = some g) (ht : mkTimestamp year g = none) :
    parse_log_entry year line = none := by
  unfold parse_log_entry
  simp only [hm, ht]

/-- Witness for C5 at the shape-valid but date-invalid line `Feb 30 ...`. -/
theorem parse_none_of_invalid_date_witness :
    matchSyslog (pyStrip c5Line) = some c5Groups ∧ mkTimestamp 2026 c5Groups = none ∧
      parse_log_entry 2026 c5Line = none :=
  ⟨by decide, by decide, parse_none_of_invalid_date 2026 c5Line c5Groups (by decide) (by decide)⟩

/-- Counterexample to claim C3 as stated: the line `... sshd[0]: ...` has a
`[pid]` segment whose digits are `0`; it parses successfully with
`pid = some 0`, and `0` is not strictly greater than zero. -/
theorem parse_pid_zero_counterexample :
    (parse_log_entry 2026 c3Line).map LogEntry.pid = some (some 0) ∧ ¬ 0 < 0 :=
  ⟨by decide, by decide⟩

/-- Claim C3 as amended: for every successfully parsed line, the entry's pid
is absent exactly when the regex captured no `[pid]` segment, and when the
segment is present the pid is the (nonnegative, possibly zero) decimal value
of its digits. -/
theorem parse_pid_from_groups (year : Nat) (line : List Char) (e : LogEntry) (g : Groups)
    (hp : parse_log_entry year line = some e)
    (hg : matchSyslog (pyStrip line) = some g) :
    (e.pid = none ↔ g.pidDs = none) ∧
      ∀ ds, g.pidDs = some ds → e.pid = some (natOfDigits ds) := by
  unfold parse_log_entry at hp
  simp only [hg] at hp
  cases ht : mkTimestamp year g with
  | none => simp only [ht] at hp; exact Option.noConfusion hp
  | some ts =>
    simp only [ht, Option.some.injEq] at hp
    constructor
    · rw [← hp]
      simp
    · intro ds hds
      rw [← hp]
      simp [hds]

/-- Witness for the amended C3 at a line with pid segment `[1234]`. -/
theorem parse_pid_from_groups_witness :
    parse_log_entry 2026 c3wLine = some c3wEntry ∧
      matchSyslog (pyStrip c3wLine) = some c3wGroups ∧
      (c3wEntry.pid = none ↔ c3wGroups.pidDs = none) ∧
      ∀ ds, c3wGroups.pidDs = some ds → c3wEntry.pid = some (natOfDigits ds) :=
  ⟨by decide, by decide,
   parse_pid_from_groups 2026 c3wLine c3wEntry c3wGroups (by decide) (by decide)⟩

/-- Claim C2: every entry produced by the (spec-modelled) severity-carrying
parse has severity `info`; the severity is fixed at parse time and the
definition involves no pattern matching. -/
theorem parse_severity_info (year : Nat) (line : List Char) (se : SeverityLogEntry)
    (h : parseWithSeverity year line = some se) : se.severity = Severity.info := by
  unfold parseWithSeverity at h
  cases hp : parse_log_entry year line with
  | none => simp only [hp, Option.map_none'] at h; exact Option.noConfusion h
  | some e =>
    simp only [hp, Option.map_some', Option.some.injEq] at h
    rw [← h]

/-- Witness for C2 at a concrete canonical line. -/
theorem parse_severity_info_witness :
    parseWithSeverity 2026 c2Line = some c2Entry ∧ c2Entry.severity = Severity.info :=
  ⟨by decide, parse_severity_info 2026 c2Line c2Entry (by decide)⟩

/-- Claim C6: when the syslog file is missing or unreadable, `read_syslog`
returns the empty entry list together with a diagnostic; the model is a
total function, reflecting that neither condition escapes as an exception
or terminates the process. -/
theorem read_syslog_unavailable (year n : Nat) (fa : FileAccess)
    (h : fa = FileAccess.missing ∨ fa = FileAccess.denied) :
    (read_syslog year n fa).1 = [] ∧ (read_syslog year n fa).2 ≠ none := by
  rcases h with rfl | rfl
  · exact ⟨rfl, by simp [read_syslog]⟩
  · exact ⟨rfl, by simp [read_syslog]⟩

/-- Witness for C6 on the missing-file condition. -/
theorem read_syslog_unavailable_witness :
    (FileAccess.missing = FileAccess.missing ∨ FileAccess.missing = FileAccess.denied) ∧
      (read_syslog 2026 100 FileAccess.missing).1 = [] ∧
      (read_syslog 2026 100 FileAccess.missing).2 ≠ none :=
  ⟨Or.inl rfl, read_syslog_unavailable 2026 100 FileAccess.missing (Or.inl rfl)⟩

/-- Claim C8: if the external summarization call fails, `analyze_with_claude`
returns the textual error message (the caught exception's text appended to
the fixed error text) instead of propagating the failure. -/
theorem analyze_error_text (entries : List LogEntry) (msg : List Char)
    (h : entries ≠ []) :
    analyze_with_claude entries (Except.error msg) = errorRespPre ++ msg := by
  cases entries with
  | nil => exact absurd rfl h
  | cons a t => rfl

/-- Witness for C8 at a one-entry list and a concrete error text. -/
theorem analyze_error_text_witness :
    ([c8Entry] ≠ ([] : List LogEntry)) ∧
      analyze_with_claude [c8Entry] (Except.error "API Error".toList) =
        errorRespPre ++ "API Error".toList :=
  ⟨by simp, analyze_error_text [c8Entry] "API Error".toList (by simp)⟩

/-- Counterexample to claim C7 as stated: the entry parsed from
`... sshd[0]: ...` has a present pid (zero), yet the transcript line built
by `analyze_with_claude` renders the dash in the pid position, not the pid,
because the f-string fragment `{entry.pid or '-'}` treats `0` as falsy. -/
theorem transcript_zero_pid_counterexample :
    parse_log_entry 2026 c7Line = some c7Entry ∧
      logText [c7Entry] ≠ claimedLine c7Entry ∧
      logText [c7Entry] = transcriptLine c7Entry :=
  ⟨by decide, by decide, by decide⟩

/-- Claim C7 as amended: for every non-empty entry list, the transcript
handed to the external summarizer is the newline-join of one line per entry
of the shape `<mon> <day> <HH:MM:SS> <hostname> <process>[<pid-or-dash>]:
<message>`, where the pid position holds the entry's pid when it is present
and nonzero, and the dash when the pid is absent or zero. -/
theorem logText_lines (entries : List LogEntry) (_hne : entries ≠ []) :
    logText entries = List.intercalate ['\n'] (entries.map transcriptLine) := by
  have he : formatEntry = transcriptLine := by
    funext e
    unfold formatEntry transcriptLine pidOrDash
    cases e.pid <;> simp
  unfold logText
  rw [he]

/-- Witness for the amended C7 at a one-entry list. -/
theorem logText_lines_witness :
    ([c7Entry] ≠ ([] : List LogEntry)) ∧
      logText [c7Entry] = List.intercalate ['\n'] ([c7Entry].map transcriptLine) :=
  ⟨by simp, logText_lines [c7Entry] (by simp)⟩

theorem leadsWith_append (mid post : List Char) :
    leadsWith mid (mid ++ post) = true := by
  induction mid with
  | nil => rfl
  | cons a as ih => simp [leadsWith, ih]

theorem containsSub_append (pre mid post : List Char) :
    containsSub (pre ++ mid ++ post) mid = true := by
  induction pre with
  | nil =>
    rw [List.nil_append]
    cases hmp : mid ++ post with
    | nil =>
      obtain ⟨h1, _⟩ := List.append_eq_nil.mp hmp
      rw [h1]
      rfl
    | cons a t =>
      have hc : containsSub (a :: t) mid =
          (leadsWith mid (a :: t) || containsSub t mid) := rfl
      rw [hc, ← hmp, leadsWith_append, Bool.true_or]
  | cons p ps ih =>
    have hc : containsSub (p :: (ps ++ mid ++ post)) mid =
        (leadsWith mid (p :: (ps ++ mid ++ post)) || containsSub (ps ++ mid ++ post) mid) := rfl
    simp only [List.cons_append]
    rw [hc, ih, Bool.or_true]

theorem lowerL_append (xs ys : List Char) :
    lowerL (xs ++ ys) = lowerL xs ++ lowerL ys := by
  simp [lowerL]

/-- Claim C1: any entry whose message contains the substring
`authentication failure` in any letter case is classified with a match
named `Authentication Failure` of severity `error`. -/
theorem classify_authentication_failure (e : LogEntry)
    (h : ∃ pre s post, e.message = pre ++ s ++ post ∧
      lowerL s = "authentication failure".toList) :
    ∃ p, p ∈ analyze_entry e ∧ p.name = "Authentication Failure".toList ∧
      p.severity = Severity.error := by
  obtain ⟨pre, s, post, hm, hs⟩ := h
  refine ⟨authFailurePattern, ?_, rfl, rfl⟩
  apply List.mem_filter.mpr
  refine ⟨by simp [patterns], ?_⟩
  have hcontains : containsSub (lowerL e.message) ("authentication failure".toList) = true := by
    rw [hm, lowerL_append, lowerL_append, hs]
    exact containsSub_append (lowerL pre) _ (lowerL post)
  have hlow : lowerL ("authentication failure".toList) = "authentication failure".toList := by
    decide
  unfold patternMatches authFailurePattern
  simp only [List.any_cons, Bool.or_eq_true]
  exact Or.inl (by rw [hlow]; exact hcontains)

/-- Witness for C1 at an entry whose message holds the indicator in upper
case. -/
theorem classify_authentication_failure_witness :
    (∃ pre s post, c1Entry.message = pre ++ s ++ post ∧
      lowerL s = "authentication failure".toList) ∧
    ∃ p, p ∈ analyze_entry c1Entry ∧ p.name = "Authentication Failure".toList ∧
      p.severity = Severity.error :=
  ⟨⟨[], "AUTHENTICATION FAILURE".toList, " for user test".toList, by decide, by decide⟩,
   classify_authentication_failure c1Entry
     ⟨[], "AUTHENTICATION FAILURE".toList, " for user test".toList, by decide, by decide⟩⟩
